import Mathlib

/-!
Verification of the report-generation pipeline of `streamlit_app.py`.

The Python source is shallowly embedded: pandas numeric values become `ℚ`
(missing cells are `none`), the FPDF document under construction becomes a
`List PdfElem` of drawing commands, the filesystem becomes the list of
existing paths, and every fallible step returns `Except String`.
`pdf.image` on a path absent from the filesystem fails, as FPDF's does.
The sample standard deviation that pandas computes involves a real square
root (irrational on rational data), so the composer is parametrized by the
function `stdFn` producing that single cell; no claim depends on its value.
-/

/-- A dataset cell of a numeric column: `none` models a missing value (NaN). -/
abbrev NumCell := Option ℚ

/-- The values of one column together with its dtype. -/
inductive ColData where
  | num (vals : List NumCell)
  | cat (vals : List (Option String))
deriving DecidableEq

/-- A named dataframe column. -/
structure Column where
  name : String
  data : ColData
deriving DecidableEq

/-- A pandas DataFrame: ordered sequence of named columns. -/
abbrev Frame := List Column

/-- Whether a column is selected by `df.select_dtypes(include=np.number)` /
described by `df.describe()` with default arguments. -/
def colIsNum (c : Column) : Bool :=
  match c.data with
  | .num _ => true
  | .cat _ => false

/-- The numeric columns of the frame, in frame order. -/
def numericCols (df : Frame) : List Column := df.filter colIsNum

/-- The non-missing numeric values of a column (pandas drops NaN before
computing the statistics of `describe`). -/
def numVals : ColData → List ℚ
  | .num vs => vs.filterMap id
  | .cat _ => []

/-- Number of rows of the frame, `len(df)`. -/
def nRows (df : Frame) : ℕ :=
  match df with
  | [] => 0
  | c :: _ =>
    match c.data with
    | .num vs => vs.length
    | .cat vs => vs.length

/-- Missing cells of one column. -/
def colMissing : ColData → ℕ
  | .num vs => vs.countP (fun v => v.isNone)
  | .cat vs => vs.countP (fun v => v.isNone)

/-- `df.isnull().sum().sum()`: total missing cells over every column. -/
def missingCount (df : Frame) : ℕ := (df.map (fun c => colMissing c.data)).sum

/-- Sorted copy of the values, as numpy sorts before taking percentiles. -/
def sortQ (l : List ℚ) : List ℚ := List.insertionSort (· ≤ ·) l

/-- `series.mean()`: arithmetic mean of the non-missing values; NaN (`none`)
when there is none. -/
def meanQ (l : List ℚ) : Option ℚ :=
  if l.length = 0 then none else some (l.sum / (l.length : ℚ))

/-- `series.min()`: smallest value, i.e. the head of the sorted values. -/
def minQ (l : List ℚ) : Option ℚ := (sortQ l).head?

/-- `series.max()`: largest value, i.e. the last of the sorted values. -/
def maxQ (l : List ℚ) : Option ℚ := (sortQ l).getLast?

/-- Index lookup into the sorted values with numpy's index clipping. -/
def nthClamped (s : List ℚ) (i : ℕ) : ℚ := s.getD (min i (s.length - 1)) 0

/-- Linear interpolation between order statistics at fractional index `h`:
`(1-g)*v[i] + g*v[i+1]` with `i = ⌊h⌋`, `g = h - i`. -/
def interpQ (f : ℕ → ℚ) (h : ℚ) : ℚ :=
  (1 - (h - ((⌊h⌋).toNat : ℚ))) * f (⌊h⌋).toNat
    + (h - ((⌊h⌋).toNat : ℚ)) * f ((⌊h⌋).toNat + 1)

/-- `series.quantile(p)` with pandas' default linear interpolation:
interpolate the sorted values at fractional index `p * (n - 1)`. -/
def quantileQ (l : List ℚ) (p : ℚ) : Option ℚ :=
  if (sortQ l).isEmpty then none
  else some (interpQ (nthClamped (sortQ l)) (p * (((sortQ l).length : ℚ) - 1)))

/-- A cell of the `desc_stats` table: the `index` column holds strings, the
eight statistics hold floats (`none` is NaN). -/
inductive Cell where
  | s (v : String)
  | f (v : Option ℚ)
deriving DecidableEq

/-- One row of `df.describe().T.reset_index()` for a numeric column, in
pandas' statistic order: count, mean, std, min, 25%, 50%, 75%, max.
The std cell is produced by the `stdFn` parameter (see the header note). -/
def statCells (stdFn : List ℚ → Option ℚ) (c : Column) : List Cell :=
  [Cell.s c.name,
   Cell.f (some ((numVals c.data).length : ℚ)),
   Cell.f (meanQ (numVals c.data)),
   Cell.f (stdFn (numVals c.data)),
   Cell.f (minQ (numVals c.data)),
   Cell.f (quantileQ (numVals c.data) (1/4)),
   Cell.f (quantileQ (numVals c.data) (1/2)),
   Cell.f (quantileQ (numVals c.data) (3/4)),
   Cell.f (maxQ (numVals c.data))]

/-- Lines 120-121: `df.describe().T.reset_index()` followed by assigning the
nine header names. With at least one numeric column, `describe` yields the
eight numeric statistics and the renamed table has one row per numeric
column. With no numeric column but at least one column, `describe` falls
back to object-column statistics (count, unique, top, freq), the transposed
table is 5 columns wide, and assigning 9 names raises `ValueError`. With no
columns at all, `describe` itself raises `ValueError`. -/
def descStatsTable (stdFn : List ℚ → Option ℚ) (df : Frame) :
    Except String (List (List Cell)) :=
  if (numericCols df).isEmpty then
    if df.isEmpty then
      .error "ValueError: Cannot describe a DataFrame without columns"
    else
      .error "ValueError: Length mismatch: Expected axis has 5 elements, new values have 9 elements"
  else
    .ok ((numericCols df).map (statCells stdFn))

/-- Round half to even, as Python float formatting rounds its decimal
argument. -/
def rhalfEven (x : ℚ) : ℤ :=
  if x - (⌊x⌋ : ℚ) < 1/2 then ⌊x⌋
  else if (1 : ℚ)/2 < x - (⌊x⌋ : ℚ) then ⌊x⌋ + 1
  else if ⌊x⌋ % 2 = 0 then ⌊x⌋ else ⌊x⌋ + 1

/-- Two decimal digits, zero padded. -/
def pad2 (n : ℕ) : String := if n < 10 then "0" ++ toString n else toString n

/-- Print `z/100` with a decimal point and exactly two digits after it. -/
def intDec2 (z : ℤ) : String :=
  if z < 0 then "-" ++ toString ((-z).toNat / 100) ++ "." ++ pad2 ((-z).toNat % 100)
  else toString (z.toNat / 100) ++ "." ++ pad2 (z.toNat % 100)

/-- Line 144: the Python format `f"{value:.2f}"`, rounding to two decimals. -/
def fmt2 (q : ℚ) : String := intDec2 (rhalfEven (100 * q))

/-- Line 143-145: floats are formatted to two decimals (NaN prints as
`nan`), everything else goes through `str`. -/
def renderCell : Cell → String
  | .s v => v
  | .f none => "nan"
  | .f (some q) => fmt2 q

/-- One drawing command issued to the FPDF object. -/
inductive PdfElem where
  | page
  | font (family style : String) (size : ℚ)
  | fill (r g b : ℕ)
  | cell (w h : ℚ) (txt : String) (border filled ln : Bool) (align : String)
  | linebreak (h : Option ℚ)
  | image (path : String) (x y : Option ℚ) (w : ℚ)
deriving DecidableEq

/-- Width in mm of a landscape A4 FPDF page (`pdf.w`). -/
def pdfW : ℚ := 297

/-- Line 124: the layout constant `page_width` used for the table. -/
def page_width : ℚ := 280

/-- Lines 125-129: the nine fixed column widths of the statistics table. -/
def col_widths : List ℚ :=
  [page_width * (15/100), page_width * (10/100), page_width * (10/100),
   page_width * (12/100), page_width * (10/100), page_width * (10/100),
   page_width * (10/100), page_width * (10/100), page_width * (10/100)]

/-- Line 121: the nine header names assigned to `desc_stats.columns`. -/
def headersTab : List String :=
  ["Coluna", "Contagem", "Média", "Desvio Padrão", "Mínimo", "25%", "50%", "75%", "Máximo"]

/-- Python truthiness of the `logo_path` argument at line 98. -/
def strTruthy : Option String → Bool
  | none => false
  | some s => !(s == "")

/-- Lines 97-99: `pdf.image(logo_path, x=10, y=8, w=25)` when `logo_path` is
truthy; FPDF raises when the path does not exist. -/
def logoElems (fs : List String) : Option String → Except String (List PdfElem)
  | none => .ok []
  | some p =>
    if p = "" then .ok []
    else if fs.contains p then .ok [PdfElem.image p (some 10) (some 8) 25]
    else .error ("FileNotFoundError: " ++ p)

/-- Lines 101-112: title and the metadata block. -/
def titleMetaElems (ts : String) (df : Frame) : List PdfElem :=
  [PdfElem.font "Arial" "B" 16,
   PdfElem.cell 0 15 "Relatório de Análise de Dados" false false true "C",
   PdfElem.linebreak (some 5),
   PdfElem.font "Arial" "B" 10,
   PdfElem.cell 0 8 ("Data do relatório: " ++ ts) false false true "",
   PdfElem.cell 0 8 ("Total de registros: " ++ toString (nRows df)) false false true "",
   PdfElem.cell 0 8 ("Total de colunas: " ++ toString df.length) false false true "",
   PdfElem.cell 0 8 ("Total de valores faltantes: " ++ toString (missingCount df)) false false true "",
   PdfElem.linebreak (some 10)]

/-- Lines 140-146: the cells of one data row of the statistics table. -/
def rowElems (r : List Cell) : List PdfElem :=
  (List.zipWith (fun w c => PdfElem.cell w 8 (renderCell c) true false false "C")
    col_widths r) ++ [PdfElem.linebreak none]

/-- The data rows of the statistics table, in order. -/
def rowsElems : List (List Cell) → List PdfElem
  | [] => []
  | r :: rs => rowElems r ++ rowsElems rs

/-- Lines 114-148: the statistics section, header row then data rows. -/
def tableElems (stdFn : List ℚ → Option ℚ) (df : Frame) :
    Except String (List PdfElem) :=
  match descStatsTable stdFn df with
  | .error e => .error e
  | .ok rows =>
    .ok ([PdfElem.font "Arial" "B" 14,
          PdfElem.cell 0 10 "Resumo Estatístico" false false true "",
          PdfElem.font "Arial" "" 8,
          PdfElem.fill 200 220 255]
      ++ (List.zipWith (fun w h => PdfElem.cell w 8 h true true false "C")
            col_widths headersTab)
      ++ [PdfElem.linebreak none, PdfElem.fill 255 255 255]
      ++ rowsElems rows
      ++ [PdfElem.linebreak (some 10)])

/-- Line 164: the x position centering a 260-wide image on the page. -/
def galleryImgX : ℚ := (pdfW - 260) / 2

/-- Lines 162-166 / 173-177: each gallery image placed centered at width
260 and followed by `pdf.ln(5)`; FPDF raises on a missing path. -/
def placeImages (fs : List String) : List String → Except String (List PdfElem)
  | [] => .ok []
  | p :: rest =>
    if fs.contains p then
      match placeImages fs rest with
      | .error e => .error e
      | .ok es =>
        .ok (PdfElem.image p (some galleryImgX) none 260 :: PdfElem.linebreak (some 5) :: es)
    else .error ("FileNotFoundError: " ++ p)

/-- The successful layout of the gallery images of one group. -/
def imgBlock : List String → List PdfElem
  | [] => []
  | p :: rest =>
    PdfElem.image p (some galleryImgX) none 260 :: PdfElem.linebreak (some 5) :: imgBlock rest

/-- Lines 150-177: visualization page, added only when some image was
supplied; numeric images under their sub-heading first, then categorical
images under theirs. -/
def galleryElems (fs : List String) (numImages catImages : List String) :
    Except String (List PdfElem) :=
  if numImages.isEmpty && catImages.isEmpty then .ok []
  else
    match placeImages fs numImages with
    | .error e => .error e
    | .ok nimgs =>
      match placeImages fs catImages with
      | .error e => .error e
      | .ok cimgs =>
        .ok ([PdfElem.page, PdfElem.font "Arial" "B" 14,
              PdfElem.cell 0 10 "Visualizações Gráficas" false false true "",
              PdfElem.linebreak (some 8)]
          ++ (if numImages.isEmpty then [] else
                [PdfElem.font "Arial" "B" 12,
                 PdfElem.cell 0 8 "Análise Numérica" false false true "",
                 PdfElem.linebreak (some 5)] ++ nimgs)
          ++ (if catImages.isEmpty then [] else
                [PdfElem.font "Arial" "B" 12,
                 PdfElem.cell 0 8 "Análise Categórica" false false true "",
                 PdfElem.linebreak (some 5)] ++ cimgs))

/-- The first page: `add_page`, optional logo, title, metadata, table. -/
def page1Elems (stdFn : List ℚ → Option ℚ) (ts : String) (fs : List String)
    (df : Frame) (logoPath : Option String) : Except String (List PdfElem) :=
  match logoElems fs logoPath with
  | .error e => .error e
  | .ok lg =>
    match tableElems stdFn df with
    | .error e => .error e
    | .ok tb => .ok (PdfElem.page :: (lg ++ titleMetaElems ts df ++ tb))

/-- Writing a path to storage: the path exists afterwards. -/
def fsWrite (fs : List String) (p : String) : List String :=
  if fs.contains p then fs else fs ++ [p]

/-- Lines 77-181: `create_pdf_report(df, logo_path, num_images, cat_images,
filename)`. `ts` is the `datetime.now().strftime(...)` string and `fs` the
set of existing paths. On success it returns the drawing commands of the
document, the filesystem after `pdf.output(filename)` wrote the file, and
the function's return value, which is `filename` itself (line 181). -/
def createPdfReport (stdFn : List ℚ → Option ℚ) (ts : String) (fs : List String)
    (df : Frame) (logoPath : Option String) (numImages catImages : List String)
    (filename : String) : Except String (List PdfElem × List String × String) :=
  match page1Elems stdFn ts fs df logoPath with
  | .error e => .error e
  | .ok p1 =>
    match galleryElems fs numImages catImages with
    | .error e => .error e
    | .ok g => .ok (p1 ++ g, fsWrite fs filename, filename)

/-- Render a rational for the serialized byte stream. -/
def ratStr (q : ℚ) : String := toString q.num ++ "/" ++ toString q.den

/-- Render an optional rational. -/
def optRatStr : Option ℚ → String
  | none => "-"
  | some q => ratStr q

/-- Serialize one drawing command into the output byte stream. -/
def elemStr : PdfElem → String
  | .page => "P;"
  | .font f st sz => "F" ++ f ++ "," ++ st ++ "," ++ ratStr sz ++ ";"
  | .fill r g b => "C" ++ toString r ++ "," ++ toString g ++ "," ++ toString b ++ ";"
  | .cell w h t bo fi ln al =>
    "T" ++ ratStr w ++ "," ++ ratStr h ++ "," ++ t ++ "," ++ toString bo ++ ","
      ++ toString fi ++ "," ++ toString ln ++ "," ++ al ++ ";"
  | .linebreak h => "L" ++ optRatStr h ++ ";"
  | .image p x y w =>
    "I" ++ p ++ "," ++ optRatStr x ++ "," ++ optRatStr y ++ "," ++ ratStr w ++ ";"

/-- Serialization of the composed document into its byte sequence. -/
def serializePdf (es : List PdfElem) : String := String.join (es.map elemStr)

/-- The byte sequence produced by a run of the composer. -/
def exportBytes (r : Except String (List PdfElem × List String × String)) :
    Except String String :=
  match r with
  | .error e => .error e
  | .ok out => .ok (serializePdf out.1)

/-- The drawing commands of a successful run, `[]` on failure. -/
def elemsOf (r : Except String (List PdfElem × List String × String)) : List PdfElem :=
  match r with
  | .error _ => []
  | .ok out => out.1

/-- Whether a drawing command starts a page. -/
def isPage : PdfElem → Bool
  | .page => true
  | _ => false

/-- The deterministic names handed out by `NamedTemporaryFile` in this model. -/
def tempName (i : ℕ) : String := "tmp" ++ toString i ++ ".png"

/-- Lines 195-199: `save_plot` writes the figure to a fresh temporary file
(`delete=False`) and returns its path. -/
def save_plot (fs : List String) (name : String) : List String × String :=
  (fs ++ [name], name)

/-- Modelled from the program text at line 700: the name
`cleanup_temp_files` is never defined anywhere in the program, so
evaluating the call in the `finally` block raises `NameError` before any
argument is used; no file is removed (the program contains no call to
`os.remove` or `os.unlink` at all). -/
def cleanup_temp_files (fs : List String) (paths : List (Option String)) :
    Except String (List String) :=
  .error "NameError: name cleanup_temp_files is not defined"

/-- Lines 659-700: the button handler. Figures are identified by count; the
handler saves each figure through `save_plot`, runs `create_pdf_report`
inside `try`, swallows its exceptions in `except` (line 696), and the
`finally` block's call to the undefined `cleanup_temp_files` raises
`NameError` on every path. Returns the final filesystem and the outcome
surfaced to the host. -/
def generateReportHandler (stdFn : List ℚ → Option ℚ) (ts : String)
    (fs : List String) (df : Frame) (logoPath : Option String)
    (numFigs catFigs : ℕ) : List String × Except String Unit :=
  if numFigs == 0 && catFigs == 0 then (fs, .ok ())
  else
    let numPaths := (List.range numFigs).map tempName
    let catPaths := (List.range catFigs).map (fun i => tempName (numFigs + i))
    let fs1 := (fs ++ numPaths) ++ catPaths
    let afterTry :=
      match createPdfReport stdFn ts fs1 df logoPath numPaths catPaths
              "relatorio_analise.pdf" with
      | .ok out => out.2.1
      | .error _ => fs1
    match cleanup_temp_files afterTry (logoPath :: (numPaths ++ catPaths).map some) with
    | .ok fs3 => (fs3, .ok ())
    | .error e => (afterTry, .error e)

/-- Lines 57-75: `load_data`. The two parser arguments model the outcomes of
`pd.read_csv` and `pd.read_excel`; any exception they raise is caught by the
`except` clause, which returns `None`, and a filename matching no handled
extension falls through the `if`/`elif` chain and returns `None`. -/
def load_data (name : String) (csvResult xlsxResult : Except String Frame) :
    Option Frame :=
  if name.endsWith ".csv" then
    match csvResult with
    | .ok df => some df
    | .error _ => none
  else if name.endsWith ".xlsx" || name.endsWith ".xls" then
    match xlsxResult with
    | .ok df => some df
    | .error _ => none
  else none

/-- Whether a drawing command embeds an image. -/
def isImage : PdfElem → Bool
  | .image _ _ _ _ => true
  | _ => false

/-- Whether a run of a fallible step succeeded. -/
def isOkE {ε α : Type} : Except ε α → Bool
  | .ok _ => true
  | .error _ => false

/-- The drawing commands the gallery contributes when every referenced
image exists: empty when no image was supplied, otherwise one new page,
the section heading, then the numeric group under its sub-heading followed
by the categorical group under its own. -/
def gallerySection (ni ci : List String) : List PdfElem :=
  if ni.isEmpty && ci.isEmpty then []
  else
    [PdfElem.page, PdfElem.font "Arial" "B" 14,
     PdfElem.cell 0 10 "Visualizações Gráficas" false false true "",
     PdfElem.linebreak (some 8)]
    ++ (if ni.isEmpty then [] else
          [PdfElem.font "Arial" "B" 12,
           PdfElem.cell 0 8 "Análise Numérica" false false true "",
           PdfElem.linebreak (some 5)] ++ imgBlock ni)
    ++ (if ci.isEmpty then [] else
          [PdfElem.font "Arial" "B" 12,
           PdfElem.cell 0 8 "Análise Categórica" false false true "",
           PdfElem.linebreak (some 5)] ++ imgBlock ci)

/-- The path embedded by an image drawing command, `none` otherwise. -/
def imgPath? : PdfElem → Option String
  | .image p _ _ _ => some p
  | _ => none

/-- The return value of a run of `create_pdf_report`, when it succeeded. -/
def retOf (r : Except String (List PdfElem × List String × String)) : Option String :=
  match r with
  | .ok o => some o.2.2
  | .error _ => none

/-- The filesystem after a run of `create_pdf_report`; unchanged model
state `[]` stands in for a failed run here. -/
def fsOf (r : Except String (List PdfElem × List String × String)) : List String :=
  match r with
  | .ok o => o.2.1
  | .error _ => []

/-- A std renderer usable for concrete evaluations. -/
def stdZero : List ℚ → Option ℚ := fun _ => some 0

/-- The `age` column of the spec's example scenario. -/
def ageCol : Column := ⟨"age", ColData.num [some 20, some 30, some 40, some 50]⟩

/-- The `city` column of the spec's example scenario. -/
def cityCol : Column := ⟨"city", ColData.cat [some "A", some "A", some "B", some "C"]⟩

/-- The spec's example dataset. -/
def dfScenario : Frame := [ageCol, cityCol]

/-- A dataset with a single numeric column. -/
def dfAge : Frame := [ageCol]

/-- A dataset whose every column is categorical. -/
def dfCat : Frame := [cityCol]

theorem placeImages_ok_eq (fs : List String) :
    ∀ (ps : List String) (es : List PdfElem),
      placeImages fs ps = .ok es → es = imgBlock ps := by
  intro ps
  induction ps with
  | nil =>
    intro es h
    simp only [placeImages, Except.ok.injEq] at h
    simp [imgBlock, ← h]
  | cons p rest ih =>
    intro es h
    unfold placeImages at h
    by_cases hc : fs.contains p
    · rw [if_pos hc] at h
      cases hr : placeImages fs rest with
      | error e => rw [hr] at h; exact absurd h (by simp)
      | ok es' =>
        rw [hr] at h
        simp only [Except.ok.injEq] at h
        rw [← h, imgBlock, ih es' hr]
    · rw [if_neg hc] at h
      exact absurd h (by simp)

theorem placeImages_ok_mem (fs : List String) :
    ∀ (ps : List String) (es : List PdfElem),
      placeImages fs ps = .ok es → ∀ p ∈ ps, fs.contains p = true := by
  intro ps
  induction ps with
  | nil => intro es _ p hp; cases hp
  | cons q rest ih =>
    intro es h p hp
    unfold placeImages at h
    by_cases hc : fs.contains q
    · rw [if_pos hc] at h
      cases hr : placeImages fs rest with
      | error e => rw [hr] at h; exact absurd h (by simp)
      | ok es' =>
        rcases List.mem_cons.mp hp with rfl | hp'
        · exact hc
        · exact ih es' hr p hp'
    · rw [if_neg hc] at h
      exact absurd h (by simp)

theorem logoElems_ok_shape (fs : List String) (lg : Option String)
    (es : List PdfElem) (h : logoElems fs lg = .ok es) :
    es = [] ∨ ∃ p, es = [PdfElem.image p (some 10) (some 8) 25] := by
  cases lg with
  | none =>
    simp only [logoElems, Except.ok.injEq] at h
    exact Or.inl h.symm
  | some p =>
    simp only [logoElems] at h
    by_cases he : p = ""
    · rw [if_pos he] at h
      simp only [Except.ok.injEq] at h
      exact Or.inl h.symm
    · rw [if_neg he] at h
      by_cases hc : fs.contains p
      · rw [if_pos hc] at h
        simp only [Except.ok.injEq] at h
        exact Or.inr ⟨p, h.symm⟩
      · rw [if_neg hc] at h
        exact absurd h (by simp)

theorem logoElems_ok_contains (fs : List String) (lg : Option String)
    (es : List PdfElem) (h : logoElems fs lg = .ok es) :
    ∀ p, lg = some p → p ≠ "" → fs.contains p = true := by
  intro p hl hne
  subst hl
  simp only [logoElems] at h
  rw [if_neg hne] at h
  by_cases hc : fs.contains p
  · exact hc
  · rw [if_neg hc] at h
    exact absurd h (by simp)

/-- Claim C1: the finally block at line 700 calls `cleanup_temp_files`, a
name the program never defines, so the call raises `NameError` and not a
single temporary file is removed (no deletion call exists anywhere in the
program). Evaluating the handler on a dataset with one numeric column and
one saved figure: the temporary chart file is still on storage when the
handler completes, and the handler surfaces the `NameError`. -/
theorem claim_C1_bug :
    (generateReportHandler stdZero "01/01/2025 12:00" [] dfAge none 1 0).1.contains
        (tempName 0) = true
    ∧ (generateReportHandler stdZero "01/01/2025 12:00" [] dfAge none 1 0).2
        = .error "NameError: name cleanup_temp_files is not defined" := by
  exact ⟨rfl, rfl⟩

/-- Claim C3 (counterexample to the claim as stated): on a dataset whose
only column is categorical, `df.describe()` falls back to the four
object-column statistics, so assigning the nine header names at line 121
raises `ValueError`; `create_pdf_report` does not produce a header-only
document. -/
theorem claim_C3_counterexample :
    createPdfReport stdZero "01/01/2025 12:00" [] dfCat none [] [] "relatorio.pdf"
      = .error "ValueError: Length mismatch: Expected axis has 5 elements, new values have 9 elements" := by
  rfl

/-- Claim C3 (amended): whenever the dataset has zero numeric columns,
`create_pdf_report` fails (with a `ValueError` from the statistics-table
preparation when the logo step did not already fail); no document is
produced. -/
theorem claim_C3 (stdFn : List ℚ → Option ℚ) (ts : String) (fs : List String)
    (df : Frame) (lg : Option String) (ni ci : List String) (fn : String)
    (h : numericCols df = []) :
    isOkE (createPdfReport stdFn ts fs df lg ni ci fn) = false := by
  have hempty : (numericCols df).isEmpty = true := by rw [h]; rfl
  by_cases hdf : df.isEmpty <;>
    cases hlg : logoElems fs lg <;>
      simp [createPdfReport, page1Elems, tableElems, descStatsTable, hempty, hdf, hlg, isOkE]

/-- Witness for claim C3's theorem: the all-categorical dataset satisfies
the hypothesis, and composition indeed fails on it. -/
theorem claim_C3_witness :
    numericCols dfCat = []
    ∧ isOkE (createPdfReport stdZero "t" [] dfCat none [] [] "relatorio.pdf") = false :=
  ⟨rfl, claim_C3 stdZero "t" [] dfCat none [] [] "relatorio.pdf" rfl⟩

/-- Claim C5: the nine column widths of the statistics table are exactly
the fractions 15%, 10%, 10%, 12%, 10%, 10%, 10%, 10%, 10% of the layout
page width, in that order. -/
theorem claim_C5 :
    col_widths
      = [15/100, 10/100, 10/100, 12/100, 10/100, 10/100, 10/100, 10/100,
         10/100].map (fun f => f * page_width)
    ∧ col_widths.length = 9 := by
  constructor
  · with_unfolding_all decide
  · rfl

/-- Claim C4: two runs of `create_pdf_report` on identical inputs (same
dataset, same filesystem contents, same logo, same image paths, and the
same generation timestamp, which the embedding passes explicitly) export
byte-identical documents. -/
theorem claim_C4 (stdFn stdFn' : List ℚ → Option ℚ) (ts ts' : String)
    (fs fs' : List String) (df df' : Frame) (lg lg' : Option String)
    (ni ni' ci ci' : List String) (fn fn' : String)
    (h1 : stdFn = stdFn') (h2 : ts = ts') (h3 : fs = fs') (h4 : df = df')
    (h5 : lg = lg') (h6 : ni = ni') (h7 : ci = ci') (h8 : fn = fn') :
    exportBytes (createPdfReport stdFn ts fs df lg ni ci fn)
      = exportBytes (createPdfReport stdFn' ts' fs' df' lg' ni' ci' fn') := by
  subst h1; subst h2; subst h3; subst h4; subst h5; subst h6; subst h7; subst h8
  rfl

/-- Witness for claim C4's theorem at a concrete input. -/
theorem claim_C4_witness :
    exportBytes (createPdfReport stdZero "01/01/2025 12:00" [] dfAge none [] [] "r.pdf")
      = exportBytes (createPdfReport stdZero "01/01/2025 12:00" [] dfAge none [] [] "r.pdf") :=
  claim_C4 stdZero stdZero "01/01/2025 12:00" "01/01/2025 12:00" [] [] dfAge dfAge
    none none [] [] [] [] "r.pdf" "r.pdf" rfl rfl rfl rfl rfl rfl rfl rfl

/-- Claim C9 (counterexample to the claim as stated): at a concrete input
the entry point's return value is the output file path, not the document
bytes, and the call wrote that path to durable storage (it was absent
before the call and present after). -/
theorem claim_C9_counterexample :
    retOf (createPdfReport stdZero "01/01/2025 12:00" [] dfAge none [] [] "relatorio_analise.pdf")
        = some "relatorio_analise.pdf"
    ∧ (fsOf (createPdfReport stdZero "01/01/2025 12:00" [] dfAge none [] [] "relatorio_analise.pdf")).contains
        "relatorio_analise.pdf" = true
    ∧ ([] : List String).contains "relatorio_analise.pdf" = false := by
  exact ⟨rfl, rfl, rfl⟩

theorem contains_fsWrite (fs : List String) (p : String) :
    (fsWrite fs p).contains p = true := by
  unfold fsWrite
  split
  · assumption
  · induction fs with
    | nil => simp [List.contains]
    | cons a t ih => simp_all [List.contains]

/-- Claim C9 (amended): on every successful run, `create_pdf_report` writes
the composed document to durable storage at the supplied `filename` — the
path exists on the final filesystem — and returns that path rather than the
document bytes; the host must read the file back to obtain bytes. -/
theorem claim_C9 (stdFn : List ℚ → Option ℚ) (ts : String) (fs : List String)
    (df : Frame) (lg : Option String) (ni ci : List String) (fn : String)
    (out : List PdfElem × List String × String)
    (h : createPdfReport stdFn ts fs df lg ni ci fn = .ok out) :
    out.2.1 = fsWrite fs fn ∧ out.2.2 = fn ∧ out.2.1.contains fn = true := by
  unfold createPdfReport at h
  cases h1 : page1Elems stdFn ts fs df lg with
  | error e => rw [h1] at h; exact absurd h (by simp)
  | ok p1 =>
    rw [h1] at h
    cases h2 : galleryElems fs ni ci with
    | error e => rw [h2] at h; exact absurd h (by simp)
    | ok g =>
      rw [h2] at h
      simp only [Except.ok.injEq] at h
      rw [← h]
      exact ⟨rfl, rfl, contains_fsWrite fs fn⟩

/-- Witness for claim C9's theorem at a concrete successful run. -/
theorem claim_C9_witness :
    ∃ out, createPdfReport stdZero "t" [] dfAge none [] [] "r.pdf" = .ok out
      ∧ (out.2.1 = fsWrite [] "r.pdf" ∧ out.2.2 = "r.pdf"
         ∧ out.2.1.contains "r.pdf" = true) :=
  ⟨_, rfl, claim_C9 stdZero "t" [] dfAge none [] [] "r.pdf" _ rfl⟩

/-- Claim C2 (counterexample to the claim as stated): a referenced chart
image whose path does not exist at composition time is not silently
skipped; `pdf.image` raises and `create_pdf_report` fails rather than
composing the remaining elements. -/
theorem claim_C2_counterexample :
    createPdfReport stdZero "01/01/2025 12:00" [] dfAge none ["chart.png"] [] "relatorio.pdf"
      = .error "FileNotFoundError: chart.png" := by
  rfl

theorem galleryElems_ok_mem (fs ni ci : List String) (g : List PdfElem)
    (h : galleryElems fs ni ci = .ok g) :
    ∀ p ∈ ni ++ ci, fs.contains p = true := by
  unfold galleryElems at h
  by_cases hb : (ni.isEmpty && ci.isEmpty) = true
  · rw [if_pos hb] at h
    rcases (Bool.and_eq_true _ _).mp hb with ⟨hn, hc⟩
    cases ni with
    | cons a t => simp [List.isEmpty] at hn
    | nil =>
      cases ci with
      | cons a t => simp [List.isEmpty] at hc
      | nil => intro p hp; cases hp
  · rw [if_neg hb] at h
    cases hn : placeImages fs ni with
    | error e => rw [hn] at h; exact absurd h (by simp)
    | ok nimgs =>
      rw [hn] at h
      cases hc : placeImages fs ci with
      | error e => rw [hc] at h; exact absurd h (by simp)
      | ok cimgs =>
        intro p hp
        rcases List.mem_append.mp hp with hp' | hp'
        · exact placeImages_ok_mem fs ni nimgs hn p hp'
        · exact placeImages_ok_mem fs ci cimgs hc p hp'

/-- Claim C2 (amended): only a falsy logo argument (absent or empty path)
is skipped. Whenever composition succeeds, every referenced chart-image
path and every truthy logo path existed on storage; equivalently, a
missing referenced path makes `create_pdf_report` raise instead of
skipping the element. -/
theorem claim_C2 (stdFn : List ℚ → Option ℚ) (ts : String) (fs : List String)
    (df : Frame) (lg : Option String) (ni ci : List String) (fn : String)
    (out : List PdfElem × List String × String)
    (h : createPdfReport stdFn ts fs df lg ni ci fn = .ok out) :
    (∀ p ∈ ni ++ ci, fs.contains p = true)
    ∧ (∀ p, lg = some p → p ≠ "" → fs.contains p = true) := by
  unfold createPdfReport at h
  cases h1 : page1Elems stdFn ts fs df lg with
  | error e => rw [h1] at h; exact absurd h (by simp)
  | ok p1 =>
    rw [h1] at h
    cases h2 : galleryElems fs ni ci with
    | error e => rw [h2] at h; exact absurd h (by simp)
    | ok g =>
      refine ⟨galleryElems_ok_mem fs ni ci g h2, ?_⟩
      unfold page1Elems at h1
      cases hlg : logoElems fs lg with
      | error e => rw [hlg] at h1; exact absurd h1 (by simp)
      | ok lgs => exact logoElems_ok_contains fs lg lgs hlg

/-- Witness for claim C2's theorem at a concrete successful run whose
referenced paths all exist. -/
theorem claim_C2_witness :
    ∃ out, createPdfReport stdZero "t" ["a.png", "b.png"] dfAge none ["a.png"] ["b.png"] "r.pdf"
        = .ok out
      ∧ ((∀ p ∈ ["a.png"] ++ ["b.png"], (["a.png", "b.png"] : List String).contains p = true)
         ∧ (∀ p, (none : Option String) = some p → p ≠ "" →
              (["a.png", "b.png"] : List String).contains p = true)) :=
  ⟨_, rfl, claim_C2 stdZero "t" ["a.png", "b.png"] dfAge none ["a.png"] ["b.png"] "r.pdf" _ rfl⟩

theorem getD_eq_getQ : ∀ (s : List ℚ) (i : ℕ) (h : i < s.length),
    s.getD i 0 = s.get ⟨i, h⟩ := by
  intro s
  induction s with
  | nil => intro i h; cases h
  | cons a t ih =>
    intro i h
    cases i with
    | zero => rfl
    | succ n => exact ih n (Nat.lt_of_succ_lt_succ h)

theorem nthClamped_mono (s : List ℚ) (hs : s.Sorted (· ≤ ·)) (hne : s ≠ []) :
    ∀ i j, i ≤ j → nthClamped s i ≤ nthClamped s j := by
  intro i j hij
  have hn : 0 < s.length := List.length_pos.mpr hne
  have hi : min i (s.length - 1) < s.length :=
    lt_of_le_of_lt (min_le_right _ _) (Nat.sub_lt hn Nat.one_pos)
  have hj : min j (s.length - 1) < s.length :=
    lt_of_le_of_lt (min_le_right _ _) (Nat.sub_lt hn Nat.one_pos)
  have hmm : min i (s.length - 1) ≤ min j (s.length - 1) := by omega
  unfold nthClamped
  rw [getD_eq_getQ s _ hi, getD_eq_getQ s _ hj]
  rcases Nat.lt_or_ge (min i (s.length - 1)) (min j (s.length - 1)) with hlt | hge
  · exact List.pairwise_iff_get.mp hs ⟨_, hi⟩ ⟨_, hj⟩ hlt
  · have he : (⟨min i (s.length - 1), hi⟩ : Fin s.length)
        = ⟨min j (s.length - 1), hj⟩ := Fin.ext (le_antisymm hmm hge)
    rw [he]

theorem interpQ_mono (f : ℕ → ℚ) (hf : ∀ i j, i ≤ j → f i ≤ f j)
    (h1 h2 : ℚ) (h0 : 0 ≤ h1) (h12 : h1 ≤ h2) : interpQ f h1 ≤ interpQ f h2 := by
  have h0' : 0 ≤ h2 := le_trans h0 h12
  have hn1le : ((⌊h1⌋.toNat : ℕ) : ℚ) ≤ h1 := by
    have hfl := Int.floor_le h1
    rwa [← Int.toNat_of_nonneg (Int.floor_nonneg.mpr h0), Int.cast_natCast] at hfl
  have hn1lt : h1 < ((⌊h1⌋.toNat : ℕ) : ℚ) + 1 := by
    have hfl := Int.lt_floor_add_one h1
    rwa [← Int.toNat_of_nonneg (Int.floor_nonneg.mpr h0), Int.cast_natCast] at hfl
  have hn2le : ((⌊h2⌋.toNat : ℕ) : ℚ) ≤ h2 := by
    have hfl := Int.floor_le h2
    rwa [← Int.toNat_of_nonneg (Int.floor_nonneg.mpr h0'), Int.cast_natCast] at hfl
  have hnn : ⌊h1⌋.toNat ≤ ⌊h2⌋.toNat := Int.toNat_le_toNat (Int.floor_le_floor h12)
  unfold interpQ
  rcases Nat.lt_or_ge ⌊h1⌋.toNat ⌊h2⌋.toNat with hlt | hge
  · have hA : f ⌊h1⌋.toNat ≤ f (⌊h1⌋.toNat + 1) := hf _ _ (Nat.le_succ _)
    have hB : f (⌊h1⌋.toNat + 1) ≤ f ⌊h2⌋.toNat := hf _ _ hlt
    have hC : f ⌊h2⌋.toNat ≤ f (⌊h2⌋.toNat + 1) := hf _ _ (Nat.le_succ _)
    have p1 : 0 ≤ (1 - (h1 - ((⌊h1⌋.toNat : ℕ) : ℚ)))
        * (f (⌊h1⌋.toNat + 1) - f ⌊h1⌋.toNat) :=
      mul_nonneg (by linarith) (by linarith)
    have p2 : 0 ≤ (h2 - ((⌊h2⌋.toNat : ℕ) : ℚ))
        * (f (⌊h2⌋.toNat + 1) - f ⌊h2⌋.toNat) :=
      mul_nonneg (by linarith) (by linarith)
    nlinarith [p1, p2, hB]
  · have heq : ⌊h1⌋.toNat = ⌊h2⌋.toNat := le_antisymm hnn hge
    rw [heq]
    have hA : f ⌊h2⌋.toNat ≤ f (⌊h2⌋.toNat + 1) := hf _ _ (Nat.le_succ _)
    have p : 0 ≤ (h2 - h1) * (f (⌊h2⌋.toNat + 1) - f ⌊h2⌋.toNat) :=
      mul_nonneg (by linarith) (by linarith)
    nlinarith [p]

theorem quantileQ_le (l : List ℚ) (hl : l ≠ []) (p q : ℚ)
    (hp : 0 ≤ p) (hpq : p ≤ q) :
    ∃ a b, quantileQ l p = some a ∧ quantileQ l q = some b ∧ a ≤ b := by
  have hsorted : (sortQ l).Sorted (· ≤ ·) := List.sorted_insertionSort _ _
  have hlen : (sortQ l).length = l.length := (List.perm_insertionSort _ l).length_eq
  have hsne : sortQ l ≠ [] := by
    intro he
    rw [he] at hlen
    simp at hlen
    exact hl (List.length_eq_zero.mp hlen.symm)
  have hbe : (sortQ l).isEmpty = false := by
    cases hs : sortQ l with
    | nil => exact absurd hs hsne
    | cons a t => rfl
  have hone : (1 : ℚ) ≤ ((sortQ l).length : ℚ) := by
    have : 1 ≤ (sortQ l).length := List.length_pos.mpr hsne
    exact_mod_cast this
  refine ⟨interpQ (nthClamped (sortQ l)) (p * (((sortQ l).length : ℚ) - 1)),
         interpQ (nthClamped (sortQ l)) (q * (((sortQ l).length : ℚ) - 1)),
         ?_, ?_, ?_⟩
  · simp [quantileQ, hbe]
  · simp [quantileQ, hbe]
  · exact interpQ_mono (nthClamped (sortQ l)) (nthClamped_mono (sortQ l) hsorted hsne)
      _ _ (mul_nonneg hp (by linarith)) (mul_le_mul_of_nonneg_right hpq (by linarith))

theorem sorted_head_le (a : ℚ) (t : List ℚ) (h : (a :: t).Sorted (· ≤ ·)) :
    ∀ x ∈ a :: t, a ≤ x := by
  intro x hx
  rcases List.mem_cons.mp hx with rfl | hx'
  · exact le_refl x
  · exact (List.sorted_cons.mp h).1 x hx'

theorem sorted_le_getLast : ∀ (s : List ℚ), s.Sorted (· ≤ ·) →
    ∀ (hne : s ≠ []), ∀ x ∈ s, x ≤ s.getLast hne := by
  intro s
  induction s with
  | nil => intro _ hne; exact absurd rfl hne
  | cons a t ih =>
    intro hs hne x hx
    cases t with
    | nil =>
      rcases List.mem_cons.mp hx with rfl | hx'
      · rfl
      · cases hx'
    | cons b u =>
      rw [List.getLast_cons (by simp : (b :: u) ≠ [])]
      rcases List.mem_cons.mp hx with rfl | hx'
      · exact (List.sorted_cons.mp hs).1 _ (List.getLast_mem _)
      · exact ih (List.sorted_cons.mp hs).2 (by simp) x hx'

theorem mul_length_le_sum (a : ℚ) : ∀ (l : List ℚ), (∀ x ∈ l, a ≤ x) →
    a * (l.length : ℚ) ≤ l.sum := by
  intro l
  induction l with
  | nil => intro _; simp
  | cons x t ih =>
    intro h
    have hx : a ≤ x := h x (List.mem_cons_self x t)
    have ht := ih (fun y hy => h y (List.mem_cons_of_mem x hy))
    rw [List.sum_cons, List.length_cons]
    push_cast
    linarith

theorem sum_le_mul_length (a : ℚ) : ∀ (l : List ℚ), (∀ x ∈ l, x ≤ a) →
    l.sum ≤ a * (l.length : ℚ) := by
  intro l
  induction l with
  | nil => intro _; simp
  | cons x t ih =>
    intro h
    have hx : x ≤ a := h x (List.mem_cons_self x t)
    have ht := ih (fun y hy => h y (List.mem_cons_of_mem x hy))
    rw [List.sum_cons, List.length_cons]
    push_cast
    linarith

/-- Claim C8: for every numeric column with at least one non-missing value,
the statistics computed for the describe table satisfy min ≤ mean ≤ max and
the 25th, 50th and 75th percentiles are monotone. -/
theorem claim_C8 (c : Column) (h : 0 < (numVals c.data).length) :
    ∃ mn me mx q1 q2 q3,
      minQ (numVals c.data) = some mn
      ∧ meanQ (numVals c.data) = some me
      ∧ maxQ (numVals c.data) = some mx
      ∧ quantileQ (numVals c.data) (1/4) = some q1
      ∧ quantileQ (numVals c.data) (1/2) = some q2
      ∧ quantileQ (numVals c.data) (3/4) = some q3
      ∧ mn ≤ me ∧ me ≤ mx ∧ q1 ≤ q2 ∧ q2 ≤ q3 := by
  have hlne : numVals c.data ≠ [] := List.length_pos.mp h
  have hperm : List.Perm (sortQ (numVals c.data)) (numVals c.data) :=
    List.perm_insertionSort _ _
  have hsorted : (sortQ (numVals c.data)).Sorted (· ≤ ·) :=
    List.sorted_insertionSort _ _
  have hlen : (sortQ (numVals c.data)).length = (numVals c.data).length :=
    hperm.length_eq
  have hsne : sortQ (numVals c.data) ≠ [] := by
    intro he
    rw [he] at hlen
    simp at hlen
    exact hlne (List.length_eq_zero.mp hlen.symm)
  obtain ⟨m, t, hmt⟩ : ∃ m t, sortQ (numVals c.data) = m :: t := by
    cases hs : sortQ (numVals c.data) with
    | nil => exact absurd hs hsne
    | cons a b => exact ⟨a, b, rfl⟩
  have hminv : minQ (numVals c.data) = some m := by
    unfold minQ; rw [hmt]; rfl
  have hmaxv : maxQ (numVals c.data)
      = some ((sortQ (numVals c.data)).getLast hsne) := by
    unfold maxQ; exact List.getLast?_eq_getLast_of_ne_nil hsne
  have hmeanv : meanQ (numVals c.data)
      = some ((numVals c.data).sum / ((numVals c.data).length : ℚ)) := by
    unfold meanQ; rw [if_neg (Nat.pos_iff_ne_zero.mp h)]
  have hnpos : (0 : ℚ) < ((numVals c.data).length : ℚ) := by exact_mod_cast h
  have hlow : ∀ x ∈ numVals c.data, m ≤ x := by
    intro x hx
    have hx' : x ∈ sortQ (numVals c.data) := hperm.mem_iff.mpr hx
    rw [hmt] at hx'
    exact sorted_head_le m t (hmt ▸ hsorted) x hx'
  have hhigh : ∀ x ∈ numVals c.data,
      x ≤ (sortQ (numVals c.data)).getLast hsne := by
    intro x hx
    exact sorted_le_getLast _ hsorted hsne x (hperm.mem_iff.mpr hx)
  have hmnme : m ≤ (numVals c.data).sum / ((numVals c.data).length : ℚ) := by
    rw [le_div_iff hnpos]
    exact mul_length_le_sum m _ hlow
  have hmemx : (numVals c.data).sum / ((numVals c.data).length : ℚ)
      ≤ (sortQ (numVals c.data)).getLast hsne := by
    rw [div_le_iff hnpos]
    exact sum_le_mul_length _ _ hhigh
  obtain ⟨a, b, e1, e2, hab⟩ :=
    quantileQ_le (numVals c.data) hlne (1/4) (1/2) (by norm_num) (by norm_num)
  obtain ⟨b', cq, e2', e3, hbc⟩ :=
    quantileQ_le (numVals c.data) hlne (1/2) (3/4) (by norm_num) (by norm_num)
  have hbb : b = b' := Option.some.inj (e2.symm.trans e2')
  exact ⟨m, _, _, a, b, cq, hminv, hmeanv, hmaxv, e1, e2,
    e3, hmnme, hmemx, hab, by rw [hbb]; exact hbc⟩

/-- Witness for claim C8's theorem on the example `age` column. -/
theorem claim_C8_witness :
    0 < (numVals ageCol.data).length
    ∧ ∃ mn me mx q1 q2 q3,
        minQ (numVals ageCol.data) = some mn
        ∧ meanQ (numVals ageCol.data) = some me
        ∧ maxQ (numVals ageCol.data) = some mx
        ∧ quantileQ (numVals ageCol.data) (1/4) = some q1
        ∧ quantileQ (numVals ageCol.data) (1/2) = some q2
        ∧ quantileQ (numVals ageCol.data) (3/4) = some q3
        ∧ mn ≤ me ∧ me ≤ mx ∧ q1 ≤ q2 ∧ q2 ≤ q3 :=
  ⟨by decide, claim_C8 ageCol (by decide)⟩

theorem rhalfEven_close (x : ℚ) : |x - ((rhalfEven x : ℤ) : ℚ)| ≤ 1/2 := by
  have h1 : ((⌊x⌋ : ℤ) : ℚ) ≤ x := Int.floor_le x
  have h2 : x < (⌊x⌋ : ℚ) + 1 := Int.lt_floor_add_one x
  unfold rhalfEven
  split_ifs with ha hb hc
  · rw [abs_le]; constructor <;> linarith
  · rw [abs_le]; push_cast; constructor <;> linarith
  · have he : x - ((⌊x⌋ : ℤ) : ℚ) = 1/2 := le_antisymm (not_lt.mp hb) (not_lt.mp ha)
    rw [abs_le]; constructor <;> linarith
  · have he : x - ((⌊x⌋ : ℤ) : ℚ) = 1/2 := le_antisymm (not_lt.mp hb) (not_lt.mp ha)
    rw [abs_le]; push_cast; constructor <;> linarith

/-- Claim C7: every float-valued cell of the statistics table renders
through `fmt2`, which prints the value rounded — not truncated — to exactly
two decimal digits: the printed value `z/100` is within 1/200 of the true
value, and a value like 0.999 rounds up to "1.00" where truncation would
print "0.99". In the spec's example scenario the rendered `age` row shows
count 4, mean 35.00, min 20.00 and max 50.00 (the count, a float in the
describe output, renders as "4.00"). -/
theorem claim_C7 :
    (∀ q : ℚ, ∃ z : ℤ, renderCell (Cell.f (some q)) = intDec2 z
        ∧ |q - ((z : ℤ) : ℚ)/100| ≤ 1/200)
    ∧ renderCell (Cell.f (some (999/1000))) = "1.00"
    ∧ ∀ stdFn : List ℚ → Option ℚ,
        ((statCells stdFn ageCol).map renderCell).getD 1 "" = "4.00"
        ∧ ((statCells stdFn ageCol).map renderCell).getD 2 "" = "35.00"
        ∧ ((statCells stdFn ageCol).map renderCell).getD 4 "" = "20.00"
        ∧ ((statCells stdFn ageCol).map renderCell).getD 8 "" = "50.00" := by
  refine ⟨?_, ?_, ?_⟩
  · intro q
    refine ⟨rhalfEven (100 * q), rfl, ?_⟩
    have h := rhalfEven_close (100 * q)
    rw [abs_le] at h ⊢
    constructor <;> linarith [h.1, h.2]
  · with_unfolding_all rfl
  · intro stdFn
    refine ⟨?_, ?_, ?_, ?_⟩ <;> with_unfolding_all rfl

/-- Claim C10: `load_data` returns `None` both for an uploaded name ending
in none of the three handled extensions and for a file whose parser raised;
it never propagates an exception (the embedding is a total function into
`Option`). -/
theorem claim_C10 (name : String) (c x : Except String Frame) :
    (name.endsWith ".csv" = false → name.endsWith ".xlsx" = false →
      name.endsWith ".xls" = false → load_data name c x = none)
    ∧ (∀ e, c = Except.error e → name.endsWith ".csv" = true →
        load_data name c x = none)
    ∧ (∀ e, x = Except.error e → name.endsWith ".csv" = false →
        load_data name c x = none) := by
  refine ⟨?_, ?_, ?_⟩
  · intro h1 h2 h3
    simp [load_data, h1, h2, h3]
  · intro e he h1
    simp [load_data, h1, he]
  · intro e he h1
    by_cases h2 : name.endsWith ".xlsx" <;> by_cases h3 : name.endsWith ".xls" <;>
      simp [load_data, h1, h2, h3, he]

/-- Witness for claim C10's theorem: a `.txt` name, a `.csv` whose parse
raised, and a `.xlsx` whose parse raised all load as `None`. -/
theorem claim_C10_witness :
    load_data "dados.txt" (.ok []) (.ok []) = none
    ∧ load_data "dados.csv" (.error "ParserError") (.ok []) = none
    ∧ load_data "dados.xlsx" (.ok []) (.error "BadZipFile") = none :=
  ⟨(claim_C10 "dados.txt" (.ok []) (.ok [])).1 (by with_unfolding_all decide)
      (by with_unfolding_all decide) (by with_unfolding_all decide),
   (claim_C10 "dados.csv" (.error "ParserError") (.ok [])).2.1 "ParserError" rfl
      (by with_unfolding_all decide),
   (claim_C10 "dados.xlsx" (.ok []) (.error "BadZipFile")).2.2 "BadZipFile" rfl
      (by with_unfolding_all decide)⟩

theorem isEmpty_true_eq_nil {α : Type} {l : List α} (h : l.isEmpty = true) : l = [] := by
  cases l with
  | nil => rfl
  | cons a t => simp [List.isEmpty] at h

theorem zipWith_cells_flags {α : Type} (mk : ℚ → α → PdfElem)
    (hmk : ∀ a b, isPage (mk a b) = false ∧ isImage (mk a b) = false) :
    ∀ (l1 : List ℚ) (l2 : List α) e, e ∈ List.zipWith mk l1 l2 →
      isPage e = false ∧ isImage e = false := by
  intro l1
  induction l1 with
  | nil => intro l2 e he; simp at he
  | cons a t ih =>
    intro l2 e he
    cases l2 with
    | nil => simp at he
    | cons b u =>
      rw [List.zipWith_cons_cons] at he
      rcases List.mem_cons.mp he with rfl | he'
      · exact hmk a b
      · exact ih u e he'

theorem rowsElems_flags : ∀ (rows : List (List Cell)) e, e ∈ rowsElems rows →
    isPage e = false ∧ isImage e = false := by
  intro rows
  induction rows with
  | nil => intro e he; simp [rowsElems] at he
  | cons r rs ih =>
    intro e he
    simp only [rowsElems] at he
    rcases List.mem_append.mp he with h1 | h2
    · unfold rowElems at h1
      rcases List.mem_append.mp h1 with h3 | h4
      · exact zipWith_cells_flags
          (fun w c => PdfElem.cell w 8 (renderCell c) true false false "C")
          (fun a b => ⟨rfl, rfl⟩) col_widths r e h3
      · rw [List.mem_singleton] at h4
        subst h4
        exact ⟨rfl, rfl⟩
    · exact ih e h2

theorem tableElems_flags (stdFn : List ℚ → Option ℚ) (df : Frame)
    (tb : List PdfElem) (h : tableElems stdFn df = .ok tb) :
    ∀ e ∈ tb, isPage e = false ∧ isImage e = false := by
  unfold tableElems at h
  cases hd : descStatsTable stdFn df with
  | error e => rw [hd] at h; exact absurd h (by simp)
  | ok rows =>
    rw [hd] at h
    simp only [Except.ok.injEq] at h
    rw [← h]
    intro e he
    rcases List.mem_append.mp he with h1 | h5
    · rcases List.mem_append.mp h1 with h2 | h4
      · rcases List.mem_append.mp h2 with h3 | h3b
        · rcases List.mem_append.mp h3 with hA | hZ
          · simp only [List.mem_cons, List.not_mem_nil, or_false] at hA
            rcases hA with rfl | rfl | rfl | rfl <;> exact ⟨rfl, rfl⟩
          · exact zipWith_cells_flags
              (fun w h => PdfElem.cell w 8 h true true false "C")
              (fun a b => ⟨rfl, rfl⟩) col_widths headersTab e hZ
        · simp only [List.mem_cons, List.not_mem_nil, or_false] at h3b
          rcases h3b with rfl | rfl <;> exact ⟨rfl, rfl⟩
      · exact rowsElems_flags rows e h4
    · rw [List.mem_singleton] at h5
      subst h5
      exact ⟨rfl, rfl⟩

theorem titleMetaElems_flags (ts : String) (df : Frame) :
    ∀ e ∈ titleMetaElems ts df, isPage e = false ∧ isImage e = false := by
  intro e he
  simp only [titleMetaElems, List.mem_cons, List.not_mem_nil, or_false] at he
  rcases he with rfl | rfl | rfl | rfl | rfl | rfl | rfl | rfl | rfl <;> exact ⟨rfl, rfl⟩

theorem page1Elems_shape (stdFn : List ℚ → Option ℚ) (ts : String)
    (fs : List String) (df : Frame) (lg : Option String) (p1 : List PdfElem)
    (h : page1Elems stdFn ts fs df lg = .ok p1) :
    p1.countP isPage = 1
    ∧ ∀ p x y w, PdfElem.image p x y w ∈ p1 →
        x = some 10 ∧ y = some 8 ∧ w = 25 := by
  unfold page1Elems at h
  cases hlg : logoElems fs lg with
  | error e => rw [hlg] at h; exact absurd h (by simp)
  | ok lgs =>
    rw [hlg] at h
    cases htb : tableElems stdFn df with
    | error e => rw [htb] at h; exact absurd h (by simp)
    | ok tb =>
      rw [htb] at h
      simp only [Except.ok.injEq] at h
      rw [← h]
      constructor
      · have hrest : ((lgs ++ titleMetaElems ts df) ++ tb).countP isPage = 0 := by
          rw [List.countP_eq_zero]
          intro a ha
          rcases List.mem_append.mp ha with h12 | h4
          · rcases List.mem_append.mp h12 with h1 | h3
            · rcases logoElems_ok_shape fs lg lgs hlg with rfl | ⟨p, rfl⟩
              · cases h1
              · rw [List.mem_singleton] at h1
                subst h1
                simp [isPage]
            · have hf := titleMetaElems_flags ts df a h3
              simp [hf.1]
          · have hf := tableElems_flags stdFn df tb htb a h4
            simp [hf.1]
        rw [List.countP_cons, hrest]
        rfl
      · intro p x y w hmem
        rcases List.mem_cons.mp hmem with heq | hmem'
        · exact absurd heq (by simp)
        · rcases List.mem_append.mp hmem' with h12 | h4
          · rcases List.mem_append.mp h12 with h1 | h3
            · rcases logoElems_ok_shape fs lg lgs hlg with rfl | ⟨pp, rfl⟩
              · cases h1
              · rw [List.mem_singleton] at h1
                injection h1 with h1a h1b h1c h1d
                exact ⟨h1b, h1c, h1d⟩
            · have hf := titleMetaElems_flags ts df _ h3
              exact absurd hf.2 (by simp [isImage])
          · have hf := tableElems_flags stdFn df tb htb _ h4
            exact absurd hf.2 (by simp [isImage])

theorem imgBlock_countP_page : ∀ ps : List String, (imgBlock ps).countP isPage = 0 := by
  intro ps
  induction ps with
  | nil => rfl
  | cons p rest ih => simp [imgBlock, List.countP_cons, isPage, ih]

theorem imgBlock_filterMap : ∀ ps : List String, (imgBlock ps).filterMap imgPath? = ps := by
  intro ps
  induction ps with
  | nil => rfl
  | cons p rest ih => simp [imgBlock, List.filterMap_cons, imgPath?, ih]

theorem imgBlock_img_shape : ∀ (ps : List String) p x y w,
    PdfElem.image p x y w ∈ imgBlock ps →
    x = some galleryImgX ∧ y = none ∧ w = 260 := by
  intro ps
  induction ps with
  | nil => intro p x y w hm; cases hm
  | cons q rest ih =>
    intro p x y w hm
    simp only [imgBlock, List.mem_cons] at hm
    rcases hm with heq | heq | hm'
    · injection heq with h1 h2 h3 h4
      exact ⟨h2, h3, h4⟩
    · exact absurd heq (by simp)
    · exact ih p x y w hm'

theorem galleryElems_ok_eq (fs ni ci : List String) (g : List PdfElem)
    (h : galleryElems fs ni ci = .ok g) : g = gallerySection ni ci := by
  unfold galleryElems at h
  unfold gallerySection
  by_cases hb : (ni.isEmpty && ci.isEmpty) = true
  · rw [if_pos hb] at h ⊢
    simp only [Except.ok.injEq] at h
    exact h.symm
  · rw [if_neg hb] at h ⊢
    cases hn : placeImages fs ni with
    | error e => rw [hn] at h; exact absurd h (by simp)
    | ok nimgs =>
      rw [hn] at h
      cases hc : placeImages fs ci with
      | error e => rw [hc] at h; exact absurd h (by simp)
      | ok cimgs =>
        rw [hc] at h
        simp only [Except.ok.injEq] at h
        rw [← h, placeImages_ok_eq fs ni nimgs hn, placeImages_ok_eq fs ci cimgs hc]

theorem gallerySection_countP (ni ci : List String) :
    (gallerySection ni ci).countP isPage
      = if ni.isEmpty && ci.isEmpty then 0 else 1 := by
  unfold gallerySection
  by_cases hb : (ni.isEmpty && ci.isEmpty) = true
  · rw [if_pos hb, if_pos hb]; rfl
  · rw [if_neg hb, if_neg hb]
    have hA : ∀ (ttl : String) (xs : List String),
        (if xs.isEmpty then ([] : List PdfElem) else
          [PdfElem.font "Arial" "B" 12,
           PdfElem.cell 0 8 ttl false false true "",
           PdfElem.linebreak (some 5)] ++ imgBlock xs).countP isPage = 0 := by
      intro ttl xs
      by_cases hx : xs.isEmpty = true
      · rw [if_pos hx]; rfl
      · rw [if_neg hx]
        simp [List.countP_append, List.countP_cons, isPage, imgBlock_countP_page]
    rw [List.countP_append, List.countP_append, hA "Análise Numérica" ni, hA "Análise Categórica" ci]
    rfl

theorem gallerySection_filterMap (ni ci : List String) :
    (gallerySection ni ci).filterMap imgPath? = ni ++ ci := by
  unfold gallerySection
  by_cases hb : (ni.isEmpty && ci.isEmpty) = true
  · rw [if_pos hb]
    rcases (Bool.and_eq_true _ _).mp hb with ⟨hn, hc⟩
    rw [isEmpty_true_eq_nil hn, isEmpty_true_eq_nil hc]
    rfl
  · rw [if_neg hb]
    by_cases hni : ni.isEmpty = true <;> by_cases hci : ci.isEmpty = true
    · exact absurd (by rw [hni, hci]; rfl) hb
    · rw [isEmpty_true_eq_nil hni]
      simp [hni, hci, List.filterMap_append, List.filterMap_cons, imgPath?, imgBlock_filterMap]
    · rw [isEmpty_true_eq_nil hci]
      simp [hni, hci, List.filterMap_append, List.filterMap_cons, imgPath?, imgBlock_filterMap]
    · simp [hni, hci, List.filterMap_append, List.filterMap_cons, imgPath?, imgBlock_filterMap]

theorem gallerySection_img_shape (ni ci : List String) :
    ∀ p x y w, PdfElem.image p x y w ∈ gallerySection ni ci →
      x = some galleryImgX ∧ y = none ∧ w = 260 := by
  intro p x y w hm
  unfold gallerySection at hm
  by_cases hb : (ni.isEmpty && ci.isEmpty) = true
  · rw [if_pos hb] at hm; cases hm
  · rw [if_neg hb] at hm
    have hblock : ∀ (ttl : String) (xs : List String),
        PdfElem.image p x y w ∈
          (if xs.isEmpty then ([] : List PdfElem) else
            [PdfElem.font "Arial" "B" 12,
             PdfElem.cell 0 8 ttl false false true "",
             PdfElem.linebreak (some 5)] ++ imgBlock xs) →
        x = some galleryImgX ∧ y = none ∧ w = 260 := by
      intro ttl xs hmem
      by_cases hx : xs.isEmpty = true
      · rw [if_pos hx] at hmem; cases hmem
      · rw [if_neg hx] at hmem
        rcases List.mem_append.mp hmem with hh | hi
        · simp only [List.mem_cons, List.not_mem_nil, or_false] at hh
          rcases hh with heq | heq | heq <;> exact absurd heq (by simp)
        · exact imgBlock_img_shape xs p x y w hi
    rcases List.mem_append.mp hm with h12 | h4
    · rcases List.mem_append.mp h12 with h1 | h3
      · simp only [List.mem_cons, List.not_mem_nil, or_false] at h1
        rcases h1 with heq | heq | heq | heq <;> exact absurd heq (by simp)
      · exact hblock _ ni h3
    · exact hblock _ ci h4

/-- Claim C6: a visualization page is added exactly when at least one image
was supplied: the first page contributes the single other page start and its
only possible image is the logo at its anchor; the gallery lays numeric
images under their sub-heading first, then categorical images under theirs,
every gallery image centered at the fixed width 260 (x = (297-260)/2), and
the gallery's image paths are exactly the numeric paths followed by the
categorical paths in input order. -/
theorem claim_C6 (stdFn : List ℚ → Option ℚ) (ts : String) (fs : List String)
    (df : Frame) (lg : Option String) (ni ci : List String) (fn : String)
    (out : List PdfElem × List String × String)
    (h : createPdfReport stdFn ts fs df lg ni ci fn = .ok out) :
    ∃ p1, out.1 = p1 ++ gallerySection ni ci
      ∧ p1.countP isPage = 1
      ∧ (∀ p x y w, PdfElem.image p x y w ∈ p1 →
           x = some 10 ∧ y = some 8 ∧ w = 25)
      ∧ (∀ p x y w, PdfElem.image p x y w ∈ gallerySection ni ci →
           x = some galleryImgX ∧ y = none ∧ w = 260)
      ∧ (gallerySection ni ci).filterMap imgPath? = ni ++ ci
      ∧ out.1.countP isPage = (if ni.isEmpty && ci.isEmpty then 1 else 2) := by
  unfold createPdfReport at h
  cases h1 : page1Elems stdFn ts fs df lg with
  | error e => rw [h1] at h; exact absurd h (by simp)
  | ok p1 =>
    rw [h1] at h
    cases h2 : galleryElems fs ni ci with
    | error e => rw [h2] at h; exact absurd h (by simp)
    | ok g =>
      rw [h2] at h
      simp only [Except.ok.injEq] at h
      have hshape := page1Elems_shape stdFn ts fs df lg p1 h1
      have hg : g = gallerySection ni ci := galleryElems_ok_eq fs ni ci g h2
      refine ⟨p1, ?_, hshape.1, hshape.2, gallerySection_img_shape ni ci,
        gallerySection_filterMap ni ci, ?_⟩
      · rw [← h, ← hg]
      · rw [← h, List.countP_append, hshape.1, hg, gallerySection_countP ni ci]
        by_cases hb : (ni.isEmpty && ci.isEmpty) = true
        · rw [if_pos hb, if_pos hb]
        · rw [if_neg hb, if_neg hb]

/-- Witness for claim C6's theorem at a concrete run with one numeric and
one categorical image. -/
theorem claim_C6_witness :
    ∃ out, createPdfReport stdZero "t" ["a.png", "b.png"] dfAge none ["a.png"] ["b.png"] "r.pdf"
        = .ok out
      ∧ ∃ p1, out.1 = p1 ++ gallerySection ["a.png"] ["b.png"]
          ∧ p1.countP isPage = 1
          ∧ (∀ p x y w, PdfElem.image p x y w ∈ p1 →
               x = some 10 ∧ y = some 8 ∧ w = 25)
          ∧ (∀ p x y w, PdfElem.image p x y w ∈ gallerySection ["a.png"] ["b.png"] →
               x = some galleryImgX ∧ y = none ∧ w = 260)
          ∧ (gallerySection ["a.png"] ["b.png"]).filterMap imgPath? = ["a.png"] ++ ["b.png"]
          ∧ out.1.countP isPage
              = (if (["a.png"] : List String).isEmpty && (["b.png"] : List String).isEmpty
                  then 1 else 2) :=
  ⟨_, rfl, claim_C6 stdZero "t" ["a.png", "b.png"] dfAge none ["a.png"] ["b.png"] "r.pdf" _ rfl⟩
